import Mathlib

/-!
Shallow embedding of the `multi-agent-fix` repository.

The embedding covers the three source modules:
* `multi_agent_fix/runner.py` — test oracle, failure parsing, context resolution,
  patch application (`run_tests`, `parse_failed_tests`, `get_test_context`, `apply_fix`);
* `multi_agent_fix/agent.py` — candidate generation fan-out
  (`generate_fix`, `run_parallel_agents`);
* `multi_agent_fix/cli.py` — the fix-verification orchestrator loop in `main`.

External effects are made explicit parameters:
* the file system is an association list from absolute path to content;
* each file write's success is decided by an environment function (a failed
  `write_text` raises in Python, making `apply_fix` return `False`);
* the test subprocess's behaviour is an environment function of the project state;
* the fixes returned by the parallel agents on each attempt are an environment
  function (the network calls are external nondeterminism).

All string helpers are implemented by structural recursion over character lists so
that the kernel can evaluate every definition on concrete inputs.
-/

namespace MultiAgentFix

/-- Project file system: association list from absolute path to file content. -/
abbrev FS := List (String × String)

/-- Look up a file's content (`Path.exists` / `Path.read_text`). -/
def getFile : FS → String → Option String
  | [], _ => none
  | (q, c) :: rest, p => if q = p then some c else getFile rest p

/-- Write a file (`Path.write_text`): replace its content if present, create it otherwise. -/
def setFile : FS → String → String → FS
  | [], p, c => [(p, c)]
  | (q, d) :: rest, p, c => if q = p then (q, c) :: rest else (q, d) :: setFile rest p c

/-- Is `pat` a prefix of `l`? Model of Python `str.startswith` on character lists. -/
def isPrefixOfChars : List Char → List Char → Bool
  | [], _ => true
  | _ :: _, [] => false
  | c :: cs, d :: ds => c == d && isPrefixOfChars cs ds

/-- Does `pat` occur as a contiguous substring of the list? -/
def containsAux (pat : List Char) : List Char → Bool
  | [] => isPrefixOfChars pat []
  | c :: rest => isPrefixOfChars pat (c :: rest) || containsAux pat rest

/-- Python `pat in s` for strings. -/
def containsSub (s pat : String) : Bool := containsAux pat.toList s.toList

/-- Characters strictly before the first occurrence of (nonempty) `pat`;
the whole list when `pat` is absent. This is `s.split(pat)[0]`. -/
def takeUntilSub (pat : List Char) : List Char → List Char
  | [] => []
  | c :: rest => if isPrefixOfChars pat (c :: rest) then [] else c :: takeUntilSub pat rest

/-- Characters strictly after the first occurrence of (nonempty) `pat`; `[]` when absent. -/
def afterFirstSub (pat : List Char) : List Char → List Char
  | [] => []
  | c :: rest =>
      if isPrefixOfChars pat (c :: rest) then (c :: rest).drop pat.length
      else afterFirstSub pat rest

/-- Split at every newline, accumulating the current segment reversed:
Python `s.split("\n")` on character lists. -/
def splitLinesAux : List Char → List Char → List (List Char)
  | [], acc => [acc.reverse]
  | c :: rest, acc =>
      if c == '\n' then acc.reverse :: splitLinesAux rest []
      else splitLinesAux rest (c :: acc)

/-- Python `s.split("\n")`. -/
def splitLines (s : String) : List (List Char) := splitLinesAux s.toList []

/-- Drop leading whitespace characters. -/
def dropLeadingWs : List Char → List Char
  | [] => []
  | c :: rest => if c.isWhitespace then dropLeadingWs rest else c :: rest

/-- Python `str.strip()`. -/
def trimChars (l : List Char) : List Char := (dropLeadingWs (dropLeadingWs l).reverse).reverse

/-- First whitespace-separated token, i.e. Python `s.split()[0]` of a nonempty
stripped string (`[]` when there is none). -/
def firstTokenChars (l : List Char) : List Char :=
  (dropLeadingWs l).takeWhile (fun c => !c.isWhitespace)

/-- Python `str.replace(pat, repl)` for nonempty `pat`; the fuel argument bounds the
recursion and is instantiated with the input length (one character of fuel is spent
per consumed character). -/
def replaceAux (pat repl : List Char) : Nat → List Char → List Char
  | _, [] => []
  | 0, l => l
  | fuel + 1, c :: rest =>
      if isPrefixOfChars pat (c :: rest) && !pat.isEmpty then
        repl ++ replaceAux pat repl fuel ((c :: rest).drop pat.length)
      else
        c :: replaceAux pat repl fuel rest

/-- Model of `runner.TestResult`. -/
structure TestResult where
  passed : Bool
  output : String
  failed_tests : List String
deriving DecidableEq

/-- Model of `runner.FailedTest`. -/
structure FailedTest where
  name : String
  file : String
  error : String
  source : String
deriving DecidableEq

/-- Model of `agent.FixAttempt`. -/
structure FixAttempt where
  agent_id : Nat
  file : String
  new_content : String
  explanation : String
  success : Bool := false
deriving DecidableEq

/-- Model of `runner.parse_failed_tests`: scrape failing-test identifiers out of the
raw test output, per framework. The pytest branch keeps the first whitespace token
after the first `FAILED` on lines that contain both `FAILED` and `::`; the npm,
cargo and go branches keep (stripped) whole lines matched by their markers. -/
def parse_failed_tests (output framework : String) : List String :=
  let lines := splitLines output
  if framework = "pytest" then
    lines.filterMap (fun line =>
      if containsAux "FAILED".toList line && containsAux "::".toList line then
        let parts := trimChars (takeUntilSub "FAILED".toList (afterFirstSub "FAILED".toList line))
        if parts.isEmpty then none else some (firstTokenChars parts).asString
      else none)
  else if framework = "npm" then
    lines.filterMap (fun line =>
      if containsAux "✕".toList line || containsAux "FAIL".toList line then
        some (trimChars line).asString
      else none)
  else if framework = "cargo" then
    lines.filterMap (fun line =>
      if containsAux "FAILED".toList line || containsAux "test result:".toList line then
        some (trimChars line).asString
      else none)
  else if framework = "go" then
    lines.filterMap (fun line =>
      if containsAux "--- FAIL:".toList line then
        some (trimChars (replaceAux "--- FAIL:".toList [] line.length line)).asString
      else none)
  else []

/-- Outcome of the test subprocess as observed by `runner.run_tests`: normal
completion with a return code and captured output, `subprocess.TimeoutExpired`,
or any other exception while starting or running it. -/
inductive SubprocOutcome where
  | completed (returncode : Int) (stdout stderr : String)
  | timeout
  | startFailure (message : String)
deriving DecidableEq

/-- Model of `runner.run_tests`, parameterized by the subprocess's outcome.
A timeout yields `passed := false` with output `"Test timeout"` and no parsed
failures; any other exception yields `passed := false` with the exception text
and no parsed failures. The function is total: it never raises. -/
def run_tests (framework : String) (outcome : SubprocOutcome) : TestResult :=
  match outcome with
  | .completed returncode stdout stderr =>
      let output := stdout ++ stderr
      { passed := decide (returncode = 0), output := output,
        failed_tests := parse_failed_tests output framework }
  | .timeout => { passed := false, output := "Test timeout", failed_tests := [] }
  | .startFailure message => { passed := false, output := message, failed_tests := [] }

/-- Model of `pathlib` joining `root / p` as used by the repository: an empty part
yields `root` itself, an absolute part replaces `root`, a relative part is appended. -/
def joinPath (root p : String) : String :=
  if p = "" then root
  else if isPrefixOfChars "/".toList p.toList then p
  else root ++ "/" ++ p

/-- Model of `runner.detect_test_framework`: probe marker files at the project root. -/
def detect_test_framework (root : String) (fs : FS) : String :=
  if (getFile fs (root ++ "/pytest.ini")).isSome ∨ (getFile fs (root ++ "/pyproject.toml")).isSome then
    "pytest"
  else if (getFile fs (root ++ "/package.json")).isSome then "npm"
  else if (getFile fs (root ++ "/Cargo.toml")).isSome then "cargo"
  else if (getFile fs (root ++ "/go.mod")).isSome then "go"
  else "pytest"

/-- The `test_name.split("::")[0]` file part of a pytest test identifier. -/
def pytestFilePart (test_name : String) : String :=
  (takeUntilSub "::".toList test_name.toList).asString

/-- Model of `runner.get_test_context`: only for the pytest framework and an
identifier containing `::` does it resolve `root / file_part`; when that file
exists its content becomes the source, otherwise (and for every other framework)
every field except the name is empty. -/
def get_test_context (root : String) (fs : FS) (test_name framework : String) : FailedTest :=
  if framework = "pytest" ∧ containsSub test_name "::" = true then
    let test_file := joinPath root (pytestFilePart test_name)
    match getFile fs test_file with
    | some source => { name := test_name, file := test_file, error := "", source := source }
    | none => { name := test_name, file := "", error := "", source := "" }
  else { name := test_name, file := "", error := "", source := "" }

/-- The external behaviour one CLI run interacts with:
`writeOk n p` says whether the `n`-th file write of the run (to resolved path `p`)
succeeds (`Path.write_text` raising makes `apply_fix` return `False`);
`oracle` gives the test subprocess's outcome as a function of the project state;
`gen a name file source output agents` gives the fixes returned by
`run_parallel_agents(name, file, source, output, agents)` on attempt `a`
(the attempt index seeds the external nondeterminism of the model providers). -/
structure Env where
  writeOk : Nat → String → Bool
  oracle : FS → SubprocOutcome
  gen : Nat → String → String → String → String → Nat → List FixAttempt

/-- Model of `runner.apply_fix`: resolve `file` against the project root when it is
relative, attempt the full-file write, return the (possibly unchanged) file system
and the success flag. `wc` is the index of this write within the run. -/
def apply_fix (env : Env) (wc : Nat) (root : String) (fs : FS) (file new_content : String) :
    FS × Bool :=
  let p := joinPath root file
  if env.writeOk wc p then (setFile fs p new_content, true) else (fs, false)

/-- Optional fields of the JSON object scraped from a model response
(`data.get("file")`, `data.get("content")`, `data.get("explanation")`). -/
structure ParsedFix where
  file : Option String
  content : Option String
  explanation : Option String
deriving DecidableEq

/-- Index of the first occurrence of character `c` (Python `str.find`). -/
def charIndexOf (c : Char) : List Char → Option Nat
  | [] => none
  | d :: rest => if d == c then some 0 else (charIndexOf c rest).map (· + 1)

/-- Index of the last occurrence of character `c` (Python `str.rfind`). -/
def charLastIndexOf (c : Char) (l : List Char) : Option Nat :=
  (charIndexOf c l.reverse).map (fun i => l.length - 1 - i)

/-- Model of `agent.generate_fix`. The provider round trip (`get_api_config` plus
`call_llm`) is external and enters as `call`: `Except.error` covers every exception
raised up to and including the HTTP call (these are caught by the function's `try`,
except that a missing API key raises before the `try` — that case is modelled at
the `run_parallel_agents` level). `jsonLoads` abstracts `json.loads` together with
the `data.get` field accesses, `Except.error` covering a raised `JSONDecodeError`
(also caught by the `try`). The response is sliced from the first brace to one past
the last closing brace before parsing, exactly as in the source. -/
def generate_fix (agent_id : Nat) (test_file : String) (call : Except String String)
    (jsonLoads : String → Except String ParsedFix) : FixAttempt :=
  match call with
  | .error e =>
      { agent_id := agent_id, file := test_file, new_content := "",
        explanation := "Error: " ++ e }
  | .ok response =>
      match charIndexOf (Char.ofNat 123) response.toList,
            charLastIndexOf (Char.ofNat 125) response.toList with
      | some json_start, some lastClose =>
          if json_start < lastClose + 1 then
            match jsonLoads (((response.toList.drop json_start).take
                (lastClose + 1 - json_start)).asString) with
            | .ok data =>
                { agent_id := agent_id, file := data.file.getD test_file,
                  new_content := data.content.getD "",
                  explanation := data.explanation.getD "" }
            | .error e =>
                { agent_id := agent_id, file := test_file, new_content := "",
                  explanation := "Error: " ++ e }
          else
            { agent_id := agent_id, file := test_file, new_content := "",
              explanation := "Failed to parse response" }
      | _, _ =>
          { agent_id := agent_id, file := test_file, new_content := "",
            explanation := "Failed to parse response" }

/-- Model of the fan-in loop of `agent.run_parallel_agents`. `taskResults` lists,
in completion order, what `future.result()` yields for each of the `num_agents`
submitted tasks: the `FixAttempt` returned by `generate_fix`, or `Except.error`
when the task raised (e.g. `get_api_config` finding no API key). A raising task is
swallowed by the bare `except` and contributes nothing; a returned fix is kept only
when its `new_content` is nonempty. -/
def run_parallel_agents (taskResults : List (Except String FixAttempt)) : List FixAttempt :=
  taskResults.filterMap (fun r =>
    match r with
    | Except.ok fix => if fix.new_content = "" then none else some fix
    | Except.error _ => none)

/-- State threaded through the CLI loop of `cli.main`, instrumented with counters:
file writes attempted so far, oracle (test-run) invocations, `run_parallel_agents`
invocations, and the log of `console.print` output (stdout). -/
structure RunState where
  fs : FS
  writeCount : Nat
  fixedCount : Nat
  oracleCalls : Nat
  genCalls : Nat
  log : List String
deriving DecidableEq

/-- Model of `console.print`: append one message to the log. -/
def logMsg (st : RunState) (m : String) : RunState := { st with log := st.log ++ [m] }

/-- What happened to one candidate in the `for fix in fixes` loop of `cli.main`:
displayed only (dry run), apply returned `False`, accepted, or rejected. -/
inductive FixOutcome where
  | shown
  | applyFailed
  | accepted
  | rejected
deriving DecidableEq

/-- Model of the body of the `for fix in fixes` loop in `cli.main` (lines 121–155)
for a single candidate. In dry-run mode the fix is displayed and nothing is
written. Otherwise the candidate is applied via `apply_fix`; if the apply fails
the loop just moves on (no oracle re-run). If it succeeds the oracle is re-run
and the candidate is accepted iff the new result passed or the test's identifier
is absent from the new failing list; on rejection `apply_fix` is invoked again to
write `original_content` (the snapshot of the test's context file, taken at line
119) to the candidate's file, and its returned success flag is discarded. -/
def tryOneFix (env : Env) (root framework test_name original_content : String)
    (dry_run : Bool) (st : RunState) (fix : FixAttempt) : FixOutcome × RunState :=
  if dry_run then
    let st1 := logMsg st ("Agent " ++ Nat.repr fix.agent_id)
    let st2 := logMsg st1 ("File " ++ fix.file)
    let st3 := logMsg st2 ("Explanation " ++ fix.explanation)
    let st4 := logMsg st3 "[dim]Content preview (first 500 chars):[/dim]"
    let st5 := logMsg st4 (fix.new_content.toList.take 500).asString
    (FixOutcome.shown, logMsg st5 "")
  else
    let a := apply_fix env st.writeCount root st.fs fix.file fix.new_content
    if a.2 then
      let new_result := run_tests framework (env.oracle a.1)
      let st1 := { st with fs := a.1, writeCount := st.writeCount + 1,
                           oracleCalls := st.oracleCalls + 1 }
      if new_result.passed || !(new_result.failed_tests.contains test_name) then
        let st2 := logMsg st1 ("[green]Agent " ++ Nat.repr fix.agent_id ++ " fixed the test![/green]")
        let st3 := logMsg st2 ("[dim]" ++ fix.explanation ++ "[/dim]")
        (FixOutcome.accepted, { st3 with fixedCount := st3.fixedCount + 1 })
      else
        let b := apply_fix env st1.writeCount root st1.fs fix.file original_content
        (FixOutcome.rejected, { st1 with fs := b.1, writeCount := st1.writeCount + 1 })
    else
      (FixOutcome.applyFailed, { st with writeCount := st.writeCount + 1 })

/-- The `for fix in fixes` loop: process candidates in order, stopping (with `true`)
as soon as one is accepted; `false` when the list is exhausted without acceptance. -/
def tryFixes (env : Env) (root framework test_name original_content : String)
    (dry_run : Bool) : List FixAttempt → RunState → Bool × RunState
  | [], st => (false, st)
  | fix :: rest, st =>
      let p := tryOneFix env root framework test_name original_content dry_run st fix
      if p.1 = FixOutcome.accepted then (true, p.2)
      else tryFixes env root framework test_name original_content dry_run rest p.2

/-- Record of one attempt for one test: its index, how many fixes the agents
returned, and whether some candidate was accepted during it. -/
structure AttemptRec where
  idx : Nat
  numFixes : Nat
  accepted : Bool
deriving DecidableEq

/-- Model of the body of the `for attempt in range(max_attempts)` loop in
`cli.main` (lines 93–158): announce the attempt, fan out the agents, and — when
any fixes came back — snapshot the test's context file (line 119) and run the
candidate loop. Returns whether a candidate was accepted, the new state, and the
attempt record. -/
def oneAttempt (env : Env) (root framework test_name ctx_file ctx_source initial_output : String)
    (agents : Nat) (dry_run : Bool) (max_attempts : Nat) (attempt : Nat) (st : RunState) :
    Bool × RunState × AttemptRec :=
  let st1 := logMsg st ("[dim]Attempt " ++ Nat.repr (attempt + 1) ++ "/" ++ Nat.repr max_attempts ++ "[/dim]")
  let fixes := env.gen attempt test_name ctx_file ctx_source initial_output agents
  let st2 := { st1 with genCalls := st1.genCalls + 1 }
  if fixes.isEmpty then
    (false, logMsg st2 "[yellow]No fixes generated[/yellow]",
      { idx := attempt, numFixes := 0, accepted := false })
  else
    let st3 := logMsg st2 ("[green]Generated " ++ Nat.repr fixes.length ++ " fix(es)[/green]")
    let original_content := (getFile st3.fs ctx_file).getD ""
    let r := tryFixes env root framework test_name original_content dry_run fixes st3
    (r.1, r.2, { idx := attempt, numFixes := fixes.length, accepted := r.1 })

/-- The attempt loop over the remaining attempt indices: stops early (with `true`)
as soon as an attempt accepts a candidate, otherwise runs every index. -/
def attemptLoop (env : Env) (root framework test_name ctx_file ctx_source initial_output : String)
    (agents : Nat) (dry_run : Bool) (max_attempts : Nat) :
    List Nat → RunState → List AttemptRec → Bool × RunState × List AttemptRec
  | [], st, recs => (false, st, recs)
  | attempt :: rest, st, recs =>
      let r := oneAttempt env root framework test_name ctx_file ctx_source initial_output
        agents dry_run max_attempts attempt st
      if r.1 then (true, r.2.1, recs ++ [r.2.2])
      else attemptLoop env root framework test_name ctx_file ctx_source initial_output
        agents dry_run max_attempts rest r.2.1 (recs ++ [r.2.2])

/-- Per-test summary of what the orchestrator did. `hadContext = false` means the
test was skipped immediately because its context had no source. -/
structure TestRecord where
  name : String
  hadContext : Bool
  attempts : List AttemptRec
  fixed : Bool
deriving DecidableEq

/-- Model of the body of the `for test_name in result.failed_tests` loop in
`cli.main` (lines 84–163) for a single failing test: resolve the context; with no
source, print the warning and move on (zero attempts, zero generation calls);
otherwise run the attempt loop over indices `0 .. max_attempts - 1`. -/
def processTest (env : Env) (root framework : String) (agents : Nat) (dry_run : Bool)
    (max_attempts : Nat) (initial_output : String) (st : RunState) (test_name : String) :
    RunState × TestRecord :=
  let st1 := logMsg st ("Fixing: " ++ test_name)
  let ctx := get_test_context root st1.fs test_name framework
  if ctx.source = "" then
    (logMsg st1 ("[yellow]Could not read test source for " ++ test_name ++ "[/yellow]"),
      { name := test_name, hadContext := false, attempts := [], fixed := false })
  else
    let r := attemptLoop env root framework test_name ctx.file ctx.source initial_output
      agents dry_run max_attempts (List.range max_attempts) st1 []
    if r.1 then
      (r.2.1, { name := test_name, hadContext := true, attempts := r.2.2, fixed := true })
    else
      (logMsg r.2.1 ("[red]Could not fix " ++ test_name ++ "[/red]"),
        { name := test_name, hadContext := true, attempts := r.2.2, fixed := false })

/-- Fold `processTest` over the failing tests in discovery order, accumulating the
per-test records. Each originally-failing test is processed exactly once. -/
def processTests (env : Env) (root framework : String) (agents : Nat) (dry_run : Bool)
    (max_attempts : Nat) (initial_output : String) :
    List String → RunState → List TestRecord → RunState × List TestRecord
  | [], st, recs => (st, recs)
  | t :: rest, st, recs =>
      let r := processTest env root framework agents dry_run max_attempts initial_output st t
      processTests env root framework agents dry_run max_attempts initial_output rest r.1
        (recs ++ [r.2])

/-- Result of one whole CLI run: the initial oracle result, the final state, the
per-test records, and the process exit code. -/
structure RunOutput where
  initial : TestResult
  state : RunState
  records : List TestRecord
  exitCode : Nat
deriving DecidableEq

/-- Model of `cli.main` from the initial test run onward (lines 64–172): run the
oracle once; if it passed, print and exit 0 (zero tests fixed); if it failed but no
failures were parsed, print the raw output and exit 1; otherwise list the failing
tests, repair each in order, and exit 0 exactly when at least one was fixed. -/
def mainRun (env : Env) (root framework : String) (agents : Nat) (dry_run : Bool)
    (max_attempts : Nat) (fs0 : FS) : RunOutput :=
  let st0 : RunState :=
    { fs := fs0, writeCount := 0, fixedCount := 0, oracleCalls := 1, genCalls := 0, log := [] }
  let result := run_tests framework (env.oracle fs0)
  if result.passed then
    { initial := result, state := logMsg st0 "[green]All tests passing![/green]",
      records := [], exitCode := 0 }
  else if result.failed_tests.isEmpty then
    { initial := result,
      state := logMsg (logMsg st0 "[yellow]Tests failed but couldn't parse failures:[/yellow]")
        result.output,
      records := [], exitCode := 1 }
  else
    let st1 := logMsg st0 ("[red]Found " ++ Nat.repr result.failed_tests.length ++ " failing test(s)[/red]")
    let st2 := result.failed_tests.foldl (fun s t => logMsg s ("  [dim]- " ++ t ++ "[/dim]")) st1
    let st3 := logMsg st2 ""
    let r := processTests env root framework agents dry_run max_attempts result.output
      result.failed_tests st3 []
    let st4 := logMsg r.1 ""
    if r.1.fixedCount > 0 then
      { initial := result,
        state := logMsg st4 ("[green]Fixed " ++ Nat.repr r.1.fixedCount ++ "/" ++
          Nat.repr result.failed_tests.length ++ " test(s)[/green]"),
        records := r.2, exitCode := 0 }
    else
      { initial := result, state := logMsg st4 "[red]No tests were fixed[/red]",
        records := r.2, exitCode := 1 }

/-- Concrete project for the revert analysis: a pytest test file and an unrelated
source file. -/
def fsC1 : FS := [("/proj/tests/test_a.py", "TESTSRC"), ("/proj/src/other.py", "ORIG")]

/-- Environment whose oracle always reports the same failing test and whose agents
return one candidate targeting `src/other.py` (a file other than the test's
context file); all writes succeed. -/
def envC1 : Env :=
  { writeOk := fun _ _ => true
    oracle := fun _ => SubprocOutcome.completed 1 "FAILED tests/test_a.py::test_x" ""
    gen := fun _ _ _ _ _ _ =>
      [{ agent_id := 7, file := "src/other.py", new_content := "BROKEN", explanation := "swap" }] }

/-- Concrete project with a single pytest test file. -/
def fsC3 : FS := [("/p/t.py", "SRC")]

/-- Always-failing oracle, one candidate per attempt targeting the test's own file;
every write succeeds (in particular the revert write). -/
def envC3ok : Env :=
  { writeOk := fun _ _ => true
    oracle := fun _ => SubprocOutcome.completed 1 "FAILED t.py::a" ""
    gen := fun _ _ _ _ _ _ =>
      [{ agent_id := 0, file := "t.py", new_content := "BAD", explanation := "e" }] }

/-- Same behaviour as `envC3ok` except that write number 1 — the revert write of the
first rejected candidate — fails. -/
def envC3fail : Env :=
  { writeOk := fun n _ => decide (n ≠ 1)
    oracle := fun _ => SubprocOutcome.completed 1 "FAILED t.py::a" ""
    gen := fun _ _ _ _ _ _ =>
      [{ agent_id := 0, file := "t.py", new_content := "BAD", explanation := "e" }] }

/-- Environment in which every file write fails. -/
def envC3w : Env :=
  { writeOk := fun _ _ => false
    oracle := fun _ => SubprocOutcome.completed 1 "FAILED t.py::a" ""
    gen := fun _ _ _ _ _ _ => [] }

/-- A concrete mid-run state over `fsC3`. -/
def stC3w : RunState :=
  { fs := fsC3, writeCount := 0, fixedCount := 0, oracleCalls := 1, genCalls := 0, log := [] }

/-- A concrete candidate targeting the test's own file. -/
def fixC3w : FixAttempt := { agent_id := 0, file := "t.py", new_content := "BAD", explanation := "e" }

/-- Environment whose oracle reports overall pass on the initial run. -/
def envC4 : Env :=
  { writeOk := fun _ _ => true
    oracle := fun _ => SubprocOutcome.completed 0 "all good" ""
    gen := fun _ _ _ _ _ _ => [] }

/-- Concrete task results for the candidate-source fan-in: one usable fix and one
task that raised. -/
def tasksC5 : List (Except String FixAttempt) :=
  [Except.ok { agent_id := 0, file := "f.py", new_content := "X", explanation := "r" },
   Except.error "boom"]

/-- Concrete project for the acceptance scenarios. -/
def fsAcc : FS := [("/p/t.py", "SRC")]

/-- Environment whose oracle passes exactly when the test file holds `"GOOD"`, and
whose agents return one candidate writing `"GOOD"` to the test's file. -/
def envAcc : Env :=
  { writeOk := fun _ _ => true
    oracle := fun fs =>
      if getFile fs "/p/t.py" = some "GOOD" then SubprocOutcome.completed 0 "ok" ""
      else SubprocOutcome.completed 1 "FAILED t.py::a" ""
    gen := fun _ _ _ _ _ _ =>
      [{ agent_id := 1, file := "t.py", new_content := "GOOD", explanation := "fix" }] }

/-- A concrete mid-run state over `fsAcc`. -/
def stAcc : RunState :=
  { fs := fsAcc, writeCount := 0, fixedCount := 0, oracleCalls := 1, genCalls := 0, log := [] }

/-- The candidate produced by `envAcc`. -/
def fixAcc : FixAttempt := { agent_id := 1, file := "t.py", new_content := "GOOD", explanation := "fix" }

/-- The per-test record produced by the `envAcc` scenario. -/
def recAcc : TestRecord :=
  { name := "t.py::a", hadContext := true,
    attempts := [{ idx := 0, numFixes := 1, accepted := true }], fixed := true }

/-- Invariants of one per-test record, for a configured `max_attempts`:
the attempt indices are exactly `0, 1, …` in order (strictly increasing from 0 and
all below `max_attempts`); there are at most `max_attempts` attempts; when the test
was fixed, exactly the last attempt is the accepting one (attempts stop at the
first success); when it was not fixed, no attempt accepted and — if the test had
context — all `max_attempts` attempts were spent, while a test without context
spent none. -/
def RecordOK (max_attempts : Nat) (rec : TestRecord) : Prop :=
  rec.attempts.map AttemptRec.idx = List.range rec.attempts.length
  ∧ rec.attempts.length ≤ max_attempts
  ∧ (rec.fixed = true →
      ∃ front final, rec.attempts = front ++ [final]
        ∧ (∀ a ∈ front, a.accepted = false) ∧ final.accepted = true)
  ∧ (rec.fixed = false →
      (∀ a ∈ rec.attempts, a.accepted = false)
      ∧ (rec.hadContext = true → rec.attempts.length = max_attempts)
      ∧ (rec.hadContext = false → rec.attempts = []))

/-- Unfolding lemma for `tryOneFix`: when the apply write fails, the candidate is
passed over with no oracle re-run and no change but the write counter. -/
theorem tryOneFix_applyFailed (env : Env) (root framework test_name original_content : String)
    (st : RunState) (fix : FixAttempt)
    (hfail : env.writeOk st.writeCount (joinPath root fix.file) = false) :
    tryOneFix env root framework test_name original_content false st fix
      = (FixOutcome.applyFailed, { st with writeCount := st.writeCount + 1 }) := by
  unfold tryOneFix apply_fix
  simp [hfail]

/-- Unfolding lemma for `tryOneFix`: the accepted case (apply succeeded and the
re-run passed or no longer lists the test). -/
theorem tryOneFix_accepted (env : Env) (root framework test_name original_content : String)
    (st : RunState) (fix : FixAttempt)
    (happly : env.writeOk st.writeCount (joinPath root fix.file) = true)
    (hacc : ((run_tests framework (env.oracle
          (setFile st.fs (joinPath root fix.file) fix.new_content))).passed
        || !((run_tests framework (env.oracle
          (setFile st.fs (joinPath root fix.file) fix.new_content))).failed_tests.contains
            test_name)) = true) :
    tryOneFix env root framework test_name original_content false st fix
      = (FixOutcome.accepted,
         { fs := setFile st.fs (joinPath root fix.file) fix.new_content
           writeCount := st.writeCount + 1
           fixedCount := st.fixedCount + 1
           oracleCalls := st.oracleCalls + 1
           genCalls := st.genCalls
           log := st.log ++
             ["[green]Agent " ++ Nat.repr fix.agent_id ++ " fixed the test![/green]",
              "[dim]" ++ fix.explanation ++ "[/dim]"] }) := by
  unfold tryOneFix apply_fix
  simp [happly, logMsg]
  intro hp
  rw [hp] at hacc
  simpa using hacc

/-- Unfolding lemma for `tryOneFix`: the rejected case (apply succeeded, the re-run
still lists the test); the revert write happens and its success flag is discarded. -/
theorem tryOneFix_rejected (env : Env) (root framework test_name original_content : String)
    (st : RunState) (fix : FixAttempt)
    (happly : env.writeOk st.writeCount (joinPath root fix.file) = true)
    (hacc : ((run_tests framework (env.oracle
          (setFile st.fs (joinPath root fix.file) fix.new_content))).passed
        || !((run_tests framework (env.oracle
          (setFile st.fs (joinPath root fix.file) fix.new_content))).failed_tests.contains
            test_name)) = false) :
    tryOneFix env root framework test_name original_content false st fix
      = (FixOutcome.rejected,
         { fs := (apply_fix env (st.writeCount + 1) root
              (setFile st.fs (joinPath root fix.file) fix.new_content) fix.file
              original_content).1
           writeCount := st.writeCount + 2
           fixedCount := st.fixedCount
           oracleCalls := st.oracleCalls + 1
           genCalls := st.genCalls
           log := st.log }) := by
  unfold tryOneFix
  rw [show apply_fix env st.writeCount root st.fs fix.file fix.new_content
      = (setFile st.fs (joinPath root fix.file) fix.new_content, true) from by
    unfold apply_fix; simp [happly]]
  simp [logMsg]
  simpa using hacc

/-- Unfolding lemma for `tryOneFix` in dry-run mode: the fix is only displayed. -/
theorem tryOneFix_dry (env : Env) (root framework test_name original_content : String)
    (st : RunState) (fix : FixAttempt) :
    tryOneFix env root framework test_name original_content true st fix
      = (FixOutcome.shown,
         { st with log := st.log ++
            ["Agent " ++ Nat.repr fix.agent_id,
             "File " ++ fix.file,
             "Explanation " ++ fix.explanation,
             "[dim]Content preview (first 500 chars):[/dim]",
             (fix.new_content.toList.take 500).asString,
             ""] }) := by
  unfold tryOneFix
  simp [logMsg]

/-- C1 (code bug): the spec's revert-correctness property fails on the code. The
orchestrator snapshots the TEST CONTEXT file (`cli.py` line 119) but, on rejection,
writes that snapshot into the CANDIDATE'S target file (line 155). Here the single
candidate targets `src/other.py` (content `"ORIG"` before application) while the
test's context file holds `"TESTSRC"`; after the candidate is rejected (fixed count
stays 0), `src/other.py` holds `"TESTSRC"`, not its pre-application content. -/
theorem revert_writes_wrong_snapshot_to_foreign_target :
    getFile fsC1 "/proj/src/other.py" = some "ORIG"
    ∧ getFile (mainRun envC1 "/proj" "pytest" 3 false 1 fsC1).state.fs "/proj/src/other.py"
        = some "TESTSRC"
    ∧ (mainRun envC1 "/proj" "pytest" 3 false 1 fsC1).state.fixedCount = 0 := by
  refine ⟨by decide, by decide, by decide⟩

/-- C4 counterexample: on a run whose initial oracle reports overall pass, the
process exits 0 although zero tests were fixed, so "non-zero exit exactly when zero
tests were fixed" is false as stated. -/
theorem exit_zero_despite_zero_fixed :
    ¬ (((mainRun envC4 "/p" "pytest" 3 false 3 []).exitCode ≠ 0)
        ↔ ((mainRun envC4 "/p" "pytest" 3 false 3 []).state.fixedCount = 0)) := by
  decide

/-- C5: the candidate source isolates per-task failures. For `count` submitted
generation tasks: the returned sequence is at most `count` long; every returned
candidate has nonempty content; a task that raised is simply excluded (removing it
from the completion sequence does not change the result — it never propagates to
the caller); the empty sequence is a valid result; and a provider-call failure
inside `generate_fix` yields a fix with empty content (which the fan-in then
drops). -/
theorem candidate_source_failure_isolation (num_agents : Nat)
    (taskResults : List (Except String FixAttempt))
    (hlen : taskResults.length = num_agents) :
    (run_parallel_agents taskResults).length ≤ num_agents
    ∧ (∀ f ∈ run_parallel_agents taskResults, f.new_content ≠ "")
    ∧ (∀ pre post e, taskResults = pre ++ Except.error e :: post →
        run_parallel_agents taskResults = run_parallel_agents (pre ++ post))
    ∧ run_parallel_agents [] = []
    ∧ (∀ agent_id test_file e jsonLoads,
        (generate_fix agent_id test_file (Except.error e) jsonLoads).new_content = "") := by
  subst hlen
  refine ⟨List.length_filterMap_le _ _, ?_, ?_, rfl, ?_⟩
  · intro f hf
    rcases List.mem_filterMap.mp hf with ⟨r, _, he⟩
    cases r with
    | ok fix =>
        dsimp only at he
        rcases eq_or_ne fix.new_content "" with hc | hc
        · rw [if_pos hc] at he
          cases he
        · rw [if_neg hc] at he
          injection he with h
          subst h
          exact hc
    | error e =>
        dsimp only at he
        cases he
  · intro pre post e h
    subst h
    simp [run_parallel_agents, List.filterMap_append]
  · intro agent_id test_file e jsonLoads
    rfl

/-- Witness for C5 at a concrete task list: one usable fix and one raising task. -/
theorem candidate_source_failure_isolation_witness :
    tasksC5.length = 2
    ∧ ((run_parallel_agents tasksC5).length ≤ 2
      ∧ (∀ f ∈ run_parallel_agents tasksC5, f.new_content ≠ "")
      ∧ (∀ pre post e, tasksC5 = pre ++ Except.error e :: post →
          run_parallel_agents tasksC5 = run_parallel_agents (pre ++ post))
      ∧ run_parallel_agents [] = []
      ∧ (∀ agent_id test_file e jsonLoads,
          (generate_fix agent_id test_file (Except.error e) jsonLoads).new_content = "")) :=
  ⟨rfl, candidate_source_failure_isolation 2 tasksC5 rfl⟩

/-- C6: the test oracle surfaces a subprocess timeout and a failure to start as
`passed = false` with an empty failing-test list (output `"Test timeout"`
respectively the exception text); `run_tests` is a total function of the
subprocess outcome, so the invocation itself never raises and the orchestrator,
which consumes only the returned `TestResult`, continues. -/
theorem oracle_failure_surfaced (framework message : String) :
    (run_tests framework SubprocOutcome.timeout).passed = false
    ∧ (run_tests framework SubprocOutcome.timeout).failed_tests = []
    ∧ (run_tests framework SubprocOutcome.timeout).output = "Test timeout"
    ∧ (run_tests framework (SubprocOutcome.startFailure message)).passed = false
    ∧ (run_tests framework (SubprocOutcome.startFailure message)).failed_tests = []
    ∧ (run_tests framework (SubprocOutcome.startFailure message)).output = message :=
  ⟨rfl, rfl, rfl, rfl, rfl, rfl⟩

/-- C2: a candidate that was actually applied is accepted — the success message is
printed, the fixed count is incremented, the candidate loop returns immediately
(no later candidate is consulted, no revert write happens, the file system keeps
the applied content) — exactly when the oracle re-run reports overall pass or the
test's identifier is absent from the re-run's failing list; otherwise it is
rejected. An attempt whose candidate loop accepted stops the attempt loop: the
result is independent of the remaining attempt indices. -/
theorem accepted_iff_pass_or_absent (env : Env)
    (root framework test_name original_content : String) (dry_run : Bool)
    (st : RunState) (fix : FixAttempt) (rest : List FixAttempt)
    (hdry : dry_run = false)
    (happly : env.writeOk st.writeCount (joinPath root fix.file) = true) :
    ((tryOneFix env root framework test_name original_content dry_run st fix).1
        = FixOutcome.accepted
      ↔ ((run_tests framework (env.oracle
            (setFile st.fs (joinPath root fix.file) fix.new_content))).passed = true
        ∨ test_name ∉ (run_tests framework (env.oracle
            (setFile st.fs (joinPath root fix.file) fix.new_content))).failed_tests))
    ∧ ((tryOneFix env root framework test_name original_content dry_run st fix).1
          ≠ FixOutcome.accepted
        → (tryOneFix env root framework test_name original_content dry_run st fix).1
            = FixOutcome.rejected)
    ∧ ((tryOneFix env root framework test_name original_content dry_run st fix).1
          = FixOutcome.accepted
        → (tryOneFix env root framework test_name original_content dry_run st fix).2.fixedCount
              = st.fixedCount + 1
          ∧ (tryOneFix env root framework test_name original_content dry_run st fix).2.fs
              = setFile st.fs (joinPath root fix.file) fix.new_content
          ∧ (tryOneFix env root framework test_name original_content dry_run st fix).2.writeCount
              = st.writeCount + 1
          ∧ tryFixes env root framework test_name original_content dry_run (fix :: rest) st
              = (true, (tryOneFix env root framework test_name original_content dry_run st fix).2))
    ∧ (∀ (ctx_file ctx_source initial_output : String) (agents max_attempts attempt : Nat)
         (idxs : List Nat) (st1 : RunState) (recs : List AttemptRec),
        (oneAttempt env root framework test_name ctx_file ctx_source initial_output agents
            dry_run max_attempts attempt st1).1 = true
        → attemptLoop env root framework test_name ctx_file ctx_source initial_output agents
            dry_run max_attempts (attempt :: idxs) st1 recs
          = (true,
              (oneAttempt env root framework test_name ctx_file ctx_source initial_output agents
                dry_run max_attempts attempt st1).2.1,
              recs ++ [(oneAttempt env root framework test_name ctx_file ctx_source initial_output
                agents dry_run max_attempts attempt st1).2.2])) := by
  have hstop : ∀ (ctx_file ctx_source initial_output : String) (agents max_attempts attempt : Nat)
      (idxs : List Nat) (st1 : RunState) (recs : List AttemptRec),
      (oneAttempt env root framework test_name ctx_file ctx_source initial_output agents
          dry_run max_attempts attempt st1).1 = true
      → attemptLoop env root framework test_name ctx_file ctx_source initial_output agents
          dry_run max_attempts (attempt :: idxs) st1 recs
        = (true,
            (oneAttempt env root framework test_name ctx_file ctx_source initial_output agents
              dry_run max_attempts attempt st1).2.1,
            recs ++ [(oneAttempt env root framework test_name ctx_file ctx_source initial_output
              agents dry_run max_attempts attempt st1).2.2]) := by
    intro cf cs io ag ma a idxs st1 recs h
    simp only [attemptLoop]
    rw [h]
    simp
  subst hdry
  by_cases hb : ((run_tests framework (env.oracle
      (setFile st.fs (joinPath root fix.file) fix.new_content))).passed
      || !((run_tests framework (env.oracle
      (setFile st.fs (joinPath root fix.file) fix.new_content))).failed_tests.contains
        test_name)) = true
  · have he := tryOneFix_accepted env root framework test_name original_content st fix happly hb
    refine ⟨iff_of_true (by rw [he]) (by simpa using hb), ?_, ?_, hstop⟩
    · intro hne
      exact absurd (by rw [he]) hne
    · intro _
      refine ⟨by rw [he], by rw [he], by rw [he], ?_⟩
      simp only [tryFixes]
      rw [he]
      simp
  · have hb2 : ((run_tests framework (env.oracle
        (setFile st.fs (joinPath root fix.file) fix.new_content))).passed
        || !((run_tests framework (env.oracle
        (setFile st.fs (joinPath root fix.file) fix.new_content))).failed_tests.contains
          test_name)) = false := Bool.eq_false_iff.mpr hb
    have he := tryOneFix_rejected env root framework test_name original_content st fix happly hb2
    have h2 : (run_tests framework (env.oracle
          (setFile st.fs (joinPath root fix.file) fix.new_content))).passed = false
        ∧ test_name ∈ (run_tests framework (env.oracle
          (setFile st.fs (joinPath root fix.file) fix.new_content))).failed_tests := by
      simpa using hb2
    refine ⟨?_, ?_, ?_, hstop⟩
    · rw [he]
      apply iff_of_false
      · simp
      · rintro (hp | hnm)
        · rw [h2.1] at hp
          cases hp
        · exact hnm h2.2
    · intro _
      rw [he]
    · intro hacc2
      rw [he] at hacc2
      exact absurd hacc2 (by simp)

/-- Witness for C2 at a concrete accepted candidate: the apply write succeeds, the
re-run passes, and the theorem's equivalence yields acceptance. -/
theorem accepted_iff_pass_or_absent_witness :
    (false = false)
    ∧ envAcc.writeOk stAcc.writeCount (joinPath "/p" fixAcc.file) = true
    ∧ (tryOneFix envAcc "/p" "pytest" "t.py::a" "SRC" false stAcc fixAcc).1
        = FixOutcome.accepted :=
  ⟨rfl, rfl,
    (accepted_iff_pass_or_absent envAcc "/p" "pytest" "t.py::a" "SRC" false stAcc fixAcc []
        rfl rfl).1.mpr (Or.inl (by decide))⟩

/-- C3 counterexample: in a concrete run whose revert write fails, every observable
of the run — the printed log, the exit code, the fixed count — is identical to the
run in which the revert succeeded, and the project is left holding the rejected
candidate's content. Nothing flags or reports the suspect state, refuting the
claim's second half. -/
theorem revert_failure_changes_nothing_observable :
    (mainRun envC3fail "/p" "pytest" 3 false 1 fsC3).state.log
        = (mainRun envC3ok "/p" "pytest" 3 false 1 fsC3).state.log
    ∧ (mainRun envC3fail "/p" "pytest" 3 false 1 fsC3).exitCode
        = (mainRun envC3ok "/p" "pytest" 3 false 1 fsC3).exitCode
    ∧ (mainRun envC3fail "/p" "pytest" 3 false 1 fsC3).state.fixedCount
        = (mainRun envC3ok "/p" "pytest" 3 false 1 fsC3).state.fixedCount
    ∧ getFile (mainRun envC3fail "/p" "pytest" 3 false 1 fsC3).state.fs "/p/t.py" = some "BAD"
    ∧ getFile (mainRun envC3ok "/p" "pytest" 3 false 1 fsC3).state.fs "/p/t.py" = some "SRC" := by
  refine ⟨by decide, by decide, by decide, by decide, by decide⟩

/-- C3, amended: (a) when the apply write fails the candidate is treated as an
automatic reject — the oracle is not re-run and nothing changes but the write
counter; (b) a revert failure is silently ignored: two environments that agree on
the oracle and on the success of the apply write (but may disagree on every later
write, in particular the revert) produce the same candidate outcome, the same
printed log, and the same fixed/oracle/write counters — only file contents can
differ, so nothing is flagged or reported. -/
theorem apply_failure_auto_reject_and_revert_ignored (env envB : Env)
    (root framework test_name original_content : String) (st : RunState) (fix : FixAttempt) :
    (env.writeOk st.writeCount (joinPath root fix.file) = false →
      (tryOneFix env root framework test_name original_content false st fix).1
          = FixOutcome.applyFailed
      ∧ (tryOneFix env root framework test_name original_content false st fix).2.oracleCalls
          = st.oracleCalls
      ∧ (tryOneFix env root framework test_name original_content false st fix).2.fs = st.fs
      ∧ (tryOneFix env root framework test_name original_content false st fix).2.fixedCount
          = st.fixedCount
      ∧ (tryOneFix env root framework test_name original_content false st fix).2.log = st.log)
    ∧ (envB.oracle = env.oracle →
       envB.writeOk st.writeCount = env.writeOk st.writeCount →
        (tryOneFix envB root framework test_name original_content false st fix).1
            = (tryOneFix env root framework test_name original_content false st fix).1
        ∧ (tryOneFix envB root framework test_name original_content false st fix).2.log
            = (tryOneFix env root framework test_name original_content false st fix).2.log
        ∧ (tryOneFix envB root framework test_name original_content false st fix).2.fixedCount
            = (tryOneFix env root framework test_name original_content false st fix).2.fixedCount
        ∧ (tryOneFix envB root framework test_name original_content false st fix).2.oracleCalls
            = (tryOneFix env root framework test_name original_content false st fix).2.oracleCalls
        ∧ (tryOneFix envB root framework test_name original_content false st fix).2.writeCount
            = (tryOneFix env root framework test_name original_content false st fix).2.writeCount) := by
  constructor
  · intro hfail
    rw [tryOneFix_applyFailed env root framework test_name original_content st fix hfail]
    exact ⟨rfl, rfl, rfl, rfl, rfl⟩
  · intro ho hw
    have hwp : envB.writeOk st.writeCount (joinPath root fix.file)
        = env.writeOk st.writeCount (joinPath root fix.file) := congrFun hw _
    by_cases happ : env.writeOk st.writeCount (joinPath root fix.file) = true
    · have happB : envB.writeOk st.writeCount (joinPath root fix.file) = true := by
        rw [hwp, happ]
      have hor : envB.oracle (setFile st.fs (joinPath root fix.file) fix.new_content)
          = env.oracle (setFile st.fs (joinPath root fix.file) fix.new_content) := by rw [ho]
      by_cases hacc : ((run_tests framework (env.oracle
          (setFile st.fs (joinPath root fix.file) fix.new_content))).passed
          || !((run_tests framework (env.oracle
          (setFile st.fs (joinPath root fix.file) fix.new_content))).failed_tests.contains
            test_name)) = true
      · have haccB : ((run_tests framework (envB.oracle
            (setFile st.fs (joinPath root fix.file) fix.new_content))).passed
            || !((run_tests framework (envB.oracle
            (setFile st.fs (joinPath root fix.file) fix.new_content))).failed_tests.contains
              test_name)) = true := by
          rw [hor]
          exact hacc
        rw [tryOneFix_accepted env root framework test_name original_content st fix happ hacc,
          tryOneFix_accepted envB root framework test_name original_content st fix happB haccB]
        exact ⟨rfl, rfl, rfl, rfl, rfl⟩
      · have hacc2 : ((run_tests framework (env.oracle
            (setFile st.fs (joinPath root fix.file) fix.new_content))).passed
            || !((run_tests framework (env.oracle
            (setFile st.fs (joinPath root fix.file) fix.new_content))).failed_tests.contains
              test_name)) = false := Bool.eq_false_iff.mpr hacc
        have haccB : ((run_tests framework (envB.oracle
            (setFile st.fs (joinPath root fix.file) fix.new_content))).passed
            || !((run_tests framework (envB.oracle
            (setFile st.fs (joinPath root fix.file) fix.new_content))).failed_tests.contains
              test_name)) = false := by
          rw [hor]
          exact hacc2
        rw [tryOneFix_rejected env root framework test_name original_content st fix happ hacc2,
          tryOneFix_rejected envB root framework test_name original_content st fix happB haccB]
        exact ⟨rfl, rfl, rfl, rfl, rfl⟩
    · have hfail : env.writeOk st.writeCount (joinPath root fix.file) = false :=
        Bool.eq_false_iff.mpr happ
      have hfailB : envB.writeOk st.writeCount (joinPath root fix.file) = false := by
        rw [hwp]
        exact hfail
      rw [tryOneFix_applyFailed env root framework test_name original_content st fix hfail,
        tryOneFix_applyFailed envB root framework test_name original_content st fix hfailB]
      exact ⟨rfl, rfl, rfl, rfl, rfl⟩

/-- Witness for the amended C3 at a concrete input: an environment in which every
write fails; the apply write fails, the candidate is auto-rejected with no oracle
re-run, and the observable-equality part holds with the same environment on both
sides. -/
theorem apply_failure_auto_reject_and_revert_ignored_witness :
    (envC3w.writeOk stC3w.writeCount (joinPath "/p" fixC3w.file) = false)
    ∧ ((tryOneFix envC3w "/p" "pytest" "t.py::a" "SRC" false stC3w fixC3w).1
          = FixOutcome.applyFailed
      ∧ (tryOneFix envC3w "/p" "pytest" "t.py::a" "SRC" false stC3w fixC3w).2.oracleCalls
          = stC3w.oracleCalls
      ∧ (tryOneFix envC3w "/p" "pytest" "t.py::a" "SRC" false stC3w fixC3w).2.fs = stC3w.fs
      ∧ (tryOneFix envC3w "/p" "pytest" "t.py::a" "SRC" false stC3w fixC3w).2.fixedCount
          = stC3w.fixedCount
      ∧ (tryOneFix envC3w "/p" "pytest" "t.py::a" "SRC" false stC3w fixC3w).2.log = stC3w.log)
    ∧ ((tryOneFix envC3w "/p" "pytest" "t.py::a" "SRC" false stC3w fixC3w).1
          = (tryOneFix envC3w "/p" "pytest" "t.py::a" "SRC" false stC3w fixC3w).1
      ∧ (tryOneFix envC3w "/p" "pytest" "t.py::a" "SRC" false stC3w fixC3w).2.log
          = (tryOneFix envC3w "/p" "pytest" "t.py::a" "SRC" false stC3w fixC3w).2.log
      ∧ (tryOneFix envC3w "/p" "pytest" "t.py::a" "SRC" false stC3w fixC3w).2.fixedCount
          = (tryOneFix envC3w "/p" "pytest" "t.py::a" "SRC" false stC3w fixC3w).2.fixedCount
      ∧ (tryOneFix envC3w "/p" "pytest" "t.py::a" "SRC" false stC3w fixC3w).2.oracleCalls
          = (tryOneFix envC3w "/p" "pytest" "t.py::a" "SRC" false stC3w fixC3w).2.oracleCalls
      ∧ (tryOneFix envC3w "/p" "pytest" "t.py::a" "SRC" false stC3w fixC3w).2.writeCount
          = (tryOneFix envC3w "/p" "pytest" "t.py::a" "SRC" false stC3w fixC3w).2.writeCount) :=
  ⟨rfl,
    (apply_failure_auto_reject_and_revert_ignored envC3w envC3w "/p" "pytest" "t.py::a" "SRC"
        stC3w fixC3w).1 rfl,
    (apply_failure_auto_reject_and_revert_ignored envC3w envC3w "/p" "pytest" "t.py::a" "SRC"
        stC3w fixC3w).2 rfl rfl⟩

/-- C4, amended: the exit status is 0 exactly when the initial oracle run passed or
at least one test was fixed; it is 1 when the initial run did not pass and zero
tests were fixed (including the unparsed-failures path). In particular a fully
passing project exits 0 with zero fixes. -/
theorem exit_code_rule (env : Env) (root framework : String) (agents : Nat)
    (dry_run : Bool) (max_attempts : Nat) (fs0 : FS) :
    (mainRun env root framework agents dry_run max_attempts fs0).exitCode
      = if (mainRun env root framework agents dry_run max_attempts fs0).initial.passed = true
        then 0
        else if (mainRun env root framework agents dry_run max_attempts fs0).state.fixedCount = 0
        then 1
        else 0 := by
  simp only [mainRun]
  split
  · rename_i h
    simp [h]
  · rename_i h
    split
    · simp [h, logMsg]
    · split
      · rename_i h3
        simp [h, logMsg, Nat.pos_iff_ne_zero] at h3 ⊢
        simp [h3]
      · rename_i h3
        simp [h, logMsg, Nat.pos_iff_ne_zero, not_not] at h3 ⊢
        simp [h3]


/-- The per-test-name listing fold only appends log lines. -/
theorem foldl_log_frame :
    ∀ (l : List String) (st : RunState),
      (l.foldl (fun s t => logMsg s ("  [dim]- " ++ t ++ "[/dim]")) st).fs = st.fs
      ∧ (l.foldl (fun s t => logMsg s ("  [dim]- " ++ t ++ "[/dim]")) st).writeCount = st.writeCount
      ∧ (l.foldl (fun s t => logMsg s ("  [dim]- " ++ t ++ "[/dim]")) st).fixedCount = st.fixedCount
      ∧ (l.foldl (fun s t => logMsg s ("  [dim]- " ++ t ++ "[/dim]")) st).genCalls = st.genCalls := by
  intro l
  induction l with
  | nil => exact fun st => ⟨rfl, rfl, rfl, rfl⟩
  | cons a rest ih => exact fun st => ih _

/-- In dry-run mode the candidate loop changes neither the file system nor the
write counter. -/
theorem tryFixes_dry_frame (env : Env) (root framework test_name original_content : String) :
    ∀ (fixes : List FixAttempt) (st : RunState),
      (tryFixes env root framework test_name original_content true fixes st).2.fs = st.fs
      ∧ (tryFixes env root framework test_name original_content true fixes st).2.writeCount
          = st.writeCount := by
  intro fixes
  induction fixes with
  | nil => exact fun st => ⟨rfl, rfl⟩
  | cons fix rest ih =>
      intro st
      simp only [tryFixes]
      rw [tryOneFix_dry env root framework test_name original_content st fix]
      simp only []
      rw [if_neg (fun hcon => FixOutcome.noConfusion hcon)]
      exact ih _

/-- In dry-run mode one attempt changes neither the file system nor the write
counter. -/
theorem oneAttempt_dry_frame (env : Env)
    (root framework test_name ctx_file ctx_source initial_output : String)
    (agents max_attempts attempt : Nat) (st : RunState) :
    (oneAttempt env root framework test_name ctx_file ctx_source initial_output agents true
        max_attempts attempt st).2.1.fs = st.fs
    ∧ (oneAttempt env root framework test_name ctx_file ctx_source initial_output agents true
        max_attempts attempt st).2.1.writeCount = st.writeCount := by
  simp only [oneAttempt]
  split
  · exact ⟨rfl, rfl⟩
  · exact ⟨(tryFixes_dry_frame env root framework test_name _ _ _).1,
      (tryFixes_dry_frame env root framework test_name _ _ _).2⟩

/-- In dry-run mode the attempt loop changes neither the file system nor the write
counter. -/
theorem attemptLoop_dry_frame (env : Env)
    (root framework test_name ctx_file ctx_source initial_output : String)
    (agents max_attempts : Nat) :
    ∀ (idxs : List Nat) (st : RunState) (recs : List AttemptRec),
      (attemptLoop env root framework test_name ctx_file ctx_source initial_output agents true
          max_attempts idxs st recs).2.1.fs = st.fs
      ∧ (attemptLoop env root framework test_name ctx_file ctx_source initial_output agents true
          max_attempts idxs st recs).2.1.writeCount = st.writeCount := by
  intro idxs
  induction idxs with
  | nil => exact fun st recs => ⟨rfl, rfl⟩
  | cons a rest ih =>
      intro st recs
      simp only [attemptLoop]
      split
      · exact ⟨(oneAttempt_dry_frame env root framework test_name ctx_file ctx_source
            initial_output agents max_attempts a st).1,
          (oneAttempt_dry_frame env root framework test_name ctx_file ctx_source
            initial_output agents max_attempts a st).2⟩
      · exact ⟨(ih _ _).1.trans (oneAttempt_dry_frame env root framework test_name ctx_file
            ctx_source initial_output agents max_attempts a st).1,
          (ih _ _).2.trans (oneAttempt_dry_frame env root framework test_name ctx_file
            ctx_source initial_output agents max_attempts a st).2⟩

/-- In dry-run mode processing one test changes neither the file system nor the
write counter. -/
theorem processTest_dry_frame (env : Env) (root framework : String) (agents max_attempts : Nat)
    (initial_output : String) (st : RunState) (test_name : String) :
    (processTest env root framework agents true max_attempts initial_output st test_name).1.fs
        = st.fs
    ∧ (processTest env root framework agents true max_attempts initial_output st
        test_name).1.writeCount = st.writeCount := by
  simp only [processTest]
  split
  · exact ⟨rfl, rfl⟩
  · split
    · exact ⟨(attemptLoop_dry_frame env root framework test_name _ _ initial_output agents
          max_attempts _ _ _).1,
        (attemptLoop_dry_frame env root framework test_name _ _ initial_output agents
          max_attempts _ _ _).2⟩
    · exact ⟨(attemptLoop_dry_frame env root framework test_name _ _ initial_output agents
          max_attempts _ _ _).1,
        (attemptLoop_dry_frame env root framework test_name _ _ initial_output agents
          max_attempts _ _ _).2⟩

/-- In dry-run mode processing all tests changes neither the file system nor the
write counter. -/
theorem processTests_dry_frame (env : Env) (root framework : String) (agents max_attempts : Nat)
    (initial_output : String) :
    ∀ (tests : List String) (st : RunState) (recs : List TestRecord),
      (processTests env root framework agents true max_attempts initial_output tests st
          recs).1.fs = st.fs
      ∧ (processTests env root framework agents true max_attempts initial_output tests st
          recs).1.writeCount = st.writeCount := by
  intro tests
  induction tests with
  | nil => exact fun st recs => ⟨rfl, rfl⟩
  | cons t rest ih =>
      intro st recs
      simp only [processTests]
      exact ⟨(ih _ _).1.trans (processTest_dry_frame env root framework agents max_attempts
          initial_output st t).1,
        (ih _ _).2.trans (processTest_dry_frame env root framework agents max_attempts
          initial_output st t).2⟩

/-- C9: with the dry-run flag set, candidates are generated and displayed but never
applied — at the end of the whole run the project's files are byte-identical to the
beginning, and not a single write was attempted (`apply_fix` is never invoked). -/
theorem dry_run_writes_nothing (env : Env) (root framework : String)
    (agents max_attempts : Nat) (fs0 : FS) :
    (mainRun env root framework agents true max_attempts fs0).state.fs = fs0
    ∧ (mainRun env root framework agents true max_attempts fs0).state.writeCount = 0
    ∧ (∀ (test_name original_content : String) (st : RunState) (fix : FixAttempt),
        (tryOneFix env root framework test_name original_content true st fix).1
            = FixOutcome.shown
        ∧ (tryOneFix env root framework test_name original_content true st fix).2.fs = st.fs
        ∧ (tryOneFix env root framework test_name original_content true st fix).2.log
            = st.log ++
              ["Agent " ++ Nat.repr fix.agent_id,
               "File " ++ fix.file,
               "Explanation " ++ fix.explanation,
               "[dim]Content preview (first 500 chars):[/dim]",
               (fix.new_content.toList.take 500).asString,
               ""]) := by
  have hshow : ∀ (test_name original_content : String) (st : RunState) (fix : FixAttempt),
      (tryOneFix env root framework test_name original_content true st fix).1
          = FixOutcome.shown
      ∧ (tryOneFix env root framework test_name original_content true st fix).2.fs = st.fs
      ∧ (tryOneFix env root framework test_name original_content true st fix).2.log
          = st.log ++
            ["Agent " ++ Nat.repr fix.agent_id,
             "File " ++ fix.file,
             "Explanation " ++ fix.explanation,
             "[dim]Content preview (first 500 chars):[/dim]",
             (fix.new_content.toList.take 500).asString,
             ""] := by
    intro test_name original_content st fix
    rw [tryOneFix_dry env root framework test_name original_content st fix]
    exact ⟨rfl, rfl, rfl⟩
  refine ?_
  simp only [mainRun]
  split
  · exact ⟨rfl, rfl, hshow⟩
  · split
    · exact ⟨rfl, rfl, hshow⟩
    · split
      · exact ⟨((processTests_dry_frame env root framework agents max_attempts _ _ _ _).1).trans
            (foldl_log_frame _ _).1,
          ((processTests_dry_frame env root framework agents max_attempts _ _ _ _).2).trans
            (foldl_log_frame _ _).2.1, hshow⟩
      · exact ⟨((processTests_dry_frame env root framework agents max_attempts _ _ _ _).1).trans
            (foldl_log_frame _ _).1,
          ((processTests_dry_frame env root framework agents max_attempts _ _ _ _).2).trans
            (foldl_log_frame _ _).2.1, hshow⟩

/-- A test whose resolved context has no source is skipped: one warning is printed
and nothing else happens. -/
theorem processTest_skip (env : Env) (root framework : String) (agents : Nat) (dry_run : Bool)
    (max_attempts : Nat) (initial_output : String) (st : RunState) (test_name : String)
    (h : (get_test_context root st.fs test_name framework).source = "") :
    processTest env root framework agents dry_run max_attempts initial_output st test_name
      = (logMsg (logMsg st ("Fixing: " ++ test_name))
          ("[yellow]Could not read test source for " ++ test_name ++ "[/yellow]"),
         { name := test_name, hadContext := false, attempts := [], fixed := false }) := by
  simp only [processTest, logMsg]
  rw [if_pos h]

/-- The per-test record always carries the test's identifier. -/
theorem processTest_rec_name (env : Env) (root framework : String) (agents : Nat)
    (dry_run : Bool) (max_attempts : Nat) (initial_output : String) (st : RunState)
    (test_name : String) :
    (processTest env root framework agents dry_run max_attempts initial_output st
        test_name).2.name = test_name := by
  simp only [processTest]
  split
  · rfl
  · split
    · rfl
    · rfl

/-- The orchestrator produces exactly one record per failing test, in discovery
order: no test is processed twice or retried later. -/
theorem processTests_names (env : Env) (root framework : String) (agents : Nat)
    (dry_run : Bool) (max_attempts : Nat) (initial_output : String) :
    ∀ (tests : List String) (st : RunState) (recs : List TestRecord),
      (processTests env root framework agents dry_run max_attempts initial_output tests st
          recs).2.map TestRecord.name = recs.map TestRecord.name ++ tests := by
  intro tests
  induction tests with
  | nil =>
      intro st recs
      simp [processTests]
  | cons t rest ih =>
      intro st recs
      simp only [processTests]
      rw [ih]
      simp [processTest_rec_name]

/-- C8: a failing test whose context resolution returns no source content is
dismissed immediately: its record shows no context, zero attempts and not fixed
("Exhausted" with the distinguished no-context warning), the state is unchanged
except for the two printed lines — in particular zero candidate-generation calls,
zero writes, zero oracle re-runs — and, since the run emits exactly one record per
failing test in discovery order, the test is never retried. -/
theorem no_context_immediate_skip (env : Env) (root framework : String) (agents : Nat)
    (dry_run : Bool) (max_attempts : Nat) (initial_output : String) (st : RunState)
    (test_name : String)
    (h : (get_test_context root st.fs test_name framework).source = "") :
    (processTest env root framework agents dry_run max_attempts initial_output st test_name).2
      = { name := test_name, hadContext := false, attempts := [], fixed := false }
    ∧ (processTest env root framework agents dry_run max_attempts initial_output st
        test_name).1.fs = st.fs
    ∧ (processTest env root framework agents dry_run max_attempts initial_output st
        test_name).1.genCalls = st.genCalls
    ∧ (processTest env root framework agents dry_run max_attempts initial_output st
        test_name).1.writeCount = st.writeCount
    ∧ (processTest env root framework agents dry_run max_attempts initial_output st
        test_name).1.fixedCount = st.fixedCount
    ∧ (processTest env root framework agents dry_run max_attempts initial_output st
        test_name).1.oracleCalls = st.oracleCalls
    ∧ (∀ (tests : List String) (st0 : RunState),
        (processTests env root framework agents dry_run max_attempts initial_output tests st0
            []).2.map TestRecord.name = tests) := by
  rw [processTest_skip env root framework agents dry_run max_attempts initial_output st
    test_name h]
  exact ⟨rfl, rfl, rfl, rfl, rfl, rfl, fun tests st0 => by
    simpa using processTests_names env root framework agents dry_run max_attempts
      initial_output tests st0 []⟩

/-- Witness for C8 at a concrete pytest identifier without a separator. -/
theorem no_context_immediate_skip_witness :
    ((get_test_context "/p" stAcc.fs "standalone_test" "pytest").source = "")
    ∧ ((processTest envAcc "/p" "pytest" 3 false 2 "out" stAcc "standalone_test").2
        = { name := "standalone_test", hadContext := false, attempts := [], fixed := false }
      ∧ (processTest envAcc "/p" "pytest" 3 false 2 "out" stAcc "standalone_test").1.fs
          = stAcc.fs
      ∧ (processTest envAcc "/p" "pytest" 3 false 2 "out" stAcc "standalone_test").1.genCalls
          = stAcc.genCalls
      ∧ (processTest envAcc "/p" "pytest" 3 false 2 "out" stAcc "standalone_test").1.writeCount
          = stAcc.writeCount
      ∧ (processTest envAcc "/p" "pytest" 3 false 2 "out" stAcc "standalone_test").1.fixedCount
          = stAcc.fixedCount
      ∧ (processTest envAcc "/p" "pytest" 3 false 2 "out" stAcc "standalone_test").1.oracleCalls
          = stAcc.oracleCalls
      ∧ (∀ (tests : List String) (st0 : RunState),
          (processTests envAcc "/p" "pytest" 3 false 2 "out" tests st0 []).2.map
              TestRecord.name = tests)) :=
  ⟨by decide,
    no_context_immediate_skip envAcc "/p" "pytest" 3 false 2 "out" stAcc "standalone_test"
      (by decide)⟩

/-- For every framework other than pytest, context resolution yields an entirely
empty context. -/
theorem get_test_context_non_pytest (root : String) (fs : FS) (test_name framework : String)
    (h : framework ≠ "pytest") :
    get_test_context root fs test_name framework
      = { name := test_name, file := "", error := "", source := "" } := by
  unfold get_test_context
  rw [if_neg]
  rintro ⟨h1, _⟩
  exact h h1

/-- When context resolution is empty for every test (e.g. a non-pytest framework),
processing the whole failing list changes nothing but the log. -/
theorem processTests_all_empty_ctx (env : Env) (root framework : String) (agents : Nat)
    (dry_run : Bool) (max_attempts : Nat) (initial_output : String)
    (hctx : ∀ (fs : FS) (t : String), (get_test_context root fs t framework).source = "") :
    ∀ (tests : List String) (st : RunState) (recs : List TestRecord),
      (processTests env root framework agents dry_run max_attempts initial_output tests st
          recs).1.fs = st.fs
      ∧ (processTests env root framework agents dry_run max_attempts initial_output tests st
          recs).1.genCalls = st.genCalls
      ∧ (processTests env root framework agents dry_run max_attempts initial_output tests st
          recs).1.writeCount = st.writeCount
      ∧ (processTests env root framework agents dry_run max_attempts initial_output tests st
          recs).1.fixedCount = st.fixedCount := by
  intro tests
  induction tests with
  | nil => exact fun st recs => ⟨rfl, rfl, rfl, rfl⟩
  | cons t rest ih =>
      intro st recs
      simp only [processTests]
      rw [processTest_skip env root framework agents dry_run max_attempts initial_output st t
        (hctx st.fs t)]
      exact ⟨(ih _ _).1, (ih _ _).2.1, (ih _ _).2.2.1, (ih _ _).2.2.2⟩

/-- C10: context resolution returns an empty source for every framework other than
pytest, for every pytest identifier without `::`, and for every identifier whose
file part does not exist on disk — so each such failing test is skipped (see the C8
theorem for the per-test skip). Consequently, under the npm, cargo and go
frameworks (any framework other than pytest), a whole run performs zero
candidate-generation calls and zero writes, leaves the project untouched, and can
never fix any test. -/
theorem non_pytest_context_empty_never_fixes (env : Env)
    (root framework test_name : String) (fs : FS) (agents : Nat) (dry_run : Bool)
    (max_attempts : Nat) (fs0 : FS) :
    (framework ≠ "pytest" →
      (get_test_context root fs test_name framework).source = ""
      ∧ (get_test_context root fs test_name framework).file = "")
    ∧ (containsSub test_name "::" = false →
        (get_test_context root fs test_name "pytest").source = "")
    ∧ (getFile fs (joinPath root (pytestFilePart test_name)) = none →
        (get_test_context root fs test_name framework).source = "")
    ∧ (framework ≠ "pytest" →
        (mainRun env root framework agents dry_run max_attempts fs0).state.fixedCount = 0
        ∧ (mainRun env root framework agents dry_run max_attempts fs0).state.genCalls = 0
        ∧ (mainRun env root framework agents dry_run max_attempts fs0).state.fs = fs0
        ∧ (mainRun env root framework agents dry_run max_attempts fs0).state.writeCount = 0) := by
  refine ⟨?_, ?_, ?_, ?_⟩
  · intro h
    rw [get_test_context_non_pytest root fs test_name framework h]
    exact ⟨rfl, rfl⟩
  · intro h
    unfold get_test_context
    rw [if_neg]
    rintro ⟨_, h2⟩
    rw [h] at h2
    cases h2
  · intro h
    unfold get_test_context
    split
    · simp [h]
    · rfl
  · intro h
    have hctx : ∀ (fsA : FS) (t : String),
        (get_test_context root fsA t framework).source = "" := by
      intro fsA t
      rw [get_test_context_non_pytest root fsA t framework h]
    simp only [mainRun]
    split
    · exact ⟨rfl, rfl, rfl, rfl⟩
    · split
      · exact ⟨rfl, rfl, rfl, rfl⟩
      · have hall := processTests_all_empty_ctx env root framework agents dry_run max_attempts
          (run_tests framework (env.oracle fs0)).output hctx
        split
        · exact ⟨(hall _ _ _).2.2.2.trans (foldl_log_frame _ _).2.2.1,
            (hall _ _ _).2.1.trans (foldl_log_frame _ _).2.2.2,
            (hall _ _ _).1.trans (foldl_log_frame _ _).1,
            (hall _ _ _).2.2.1.trans (foldl_log_frame _ _).2.1⟩
        · exact ⟨(hall _ _ _).2.2.2.trans (foldl_log_frame _ _).2.2.1,
            (hall _ _ _).2.1.trans (foldl_log_frame _ _).2.2.2,
            (hall _ _ _).1.trans (foldl_log_frame _ _).1,
            (hall _ _ _).2.2.1.trans (foldl_log_frame _ _).2.1⟩

/-- Witness for C10 under the npm framework with a separator-free identifier. -/
theorem non_pytest_context_empty_never_fixes_witness :
    ("npm" ≠ "pytest")
    ∧ (containsSub "no_sep_test" "::" = false)
    ∧ (getFile fsAcc (joinPath "/p" (pytestFilePart "no_sep_test")) = none)
    ∧ ((get_test_context "/p" fsAcc "no_sep_test" "npm").source = ""
      ∧ (get_test_context "/p" fsAcc "no_sep_test" "npm").file = "")
    ∧ ((get_test_context "/p" fsAcc "no_sep_test" "pytest").source = "")
    ∧ ((mainRun envAcc "/p" "npm" 3 false 2 fsAcc).state.fixedCount = 0
      ∧ (mainRun envAcc "/p" "npm" 3 false 2 fsAcc).state.genCalls = 0
      ∧ (mainRun envAcc "/p" "npm" 3 false 2 fsAcc).state.fs = fsAcc
      ∧ (mainRun envAcc "/p" "npm" 3 false 2 fsAcc).state.writeCount = 0) :=
  ⟨by decide, by decide, by decide,
    (non_pytest_context_empty_never_fixes envAcc "/p" "npm" "no_sep_test" fsAcc 3 false 2
        fsAcc).1 (by decide),
    (non_pytest_context_empty_never_fixes envAcc "/p" "npm" "no_sep_test" fsAcc 3 false 2
        fsAcc).2.1 (by decide),
    (non_pytest_context_empty_never_fixes envAcc "/p" "npm" "no_sep_test" fsAcc 3 false 2
        fsAcc).2.2.2 (by decide)⟩

/-- A candidate is either accepted, incrementing the fixed count by one, or not
accepted, leaving it unchanged. -/
theorem tryOneFix_cases (env : Env) (root framework test_name original_content : String)
    (dry_run : Bool) (st : RunState) (fix : FixAttempt) :
    ((tryOneFix env root framework test_name original_content dry_run st fix).1
        = FixOutcome.accepted
      ∧ (tryOneFix env root framework test_name original_content dry_run st fix).2.fixedCount
          = st.fixedCount + 1)
    ∨ ((tryOneFix env root framework test_name original_content dry_run st fix).1
        ≠ FixOutcome.accepted
      ∧ (tryOneFix env root framework test_name original_content dry_run st fix).2.fixedCount
          = st.fixedCount) := by
  simp only [tryOneFix]
  split
  · exact Or.inr ⟨fun hcon => FixOutcome.noConfusion hcon, rfl⟩
  · split
    · split
      · exact Or.inl ⟨rfl, rfl⟩
      · exact Or.inr ⟨fun hcon => FixOutcome.noConfusion hcon, rfl⟩
    · exact Or.inr ⟨fun hcon => FixOutcome.noConfusion hcon, rfl⟩

/-- The candidate loop increments the fixed count by one exactly when it reports an
acceptance. -/
theorem tryFixes_fixedCount (env : Env) (root framework test_name original_content : String)
    (dry_run : Bool) :
    ∀ (fixes : List FixAttempt) (st : RunState),
      ((tryFixes env root framework test_name original_content dry_run fixes st).1 = true
        → (tryFixes env root framework test_name original_content dry_run fixes
            st).2.fixedCount = st.fixedCount + 1)
      ∧ ((tryFixes env root framework test_name original_content dry_run fixes st).1 = false
        → (tryFixes env root framework test_name original_content dry_run fixes
            st).2.fixedCount = st.fixedCount) := by
  intro fixes
  induction fixes with
  | nil => exact fun st => ⟨fun h => Bool.noConfusion h, fun _ => rfl⟩
  | cons fix rest ih =>
      intro st
      simp only [tryFixes]
      rcases tryOneFix_cases env root framework test_name original_content dry_run st fix with
        ⟨h1, h2⟩ | ⟨h1, h2⟩
      · rw [if_pos h1]
        exact ⟨fun _ => h2, fun hcon => Bool.noConfusion hcon⟩
      · rw [if_neg h1]
        exact ⟨fun h => ((ih _).1 h).trans (by rw [h2]),
          fun h => ((ih _).2 h).trans (by rw [h2])⟩

/-- One attempt records its own index, records whether it accepted, and increments
the fixed count exactly on acceptance. -/
theorem oneAttempt_spec (env : Env)
    (root framework test_name ctx_file ctx_source initial_output : String)
    (agents : Nat) (dry_run : Bool) (max_attempts attempt : Nat) (st : RunState) :
    (oneAttempt env root framework test_name ctx_file ctx_source initial_output agents dry_run
        max_attempts attempt st).2.2.idx = attempt
    ∧ (oneAttempt env root framework test_name ctx_file ctx_source initial_output agents dry_run
        max_attempts attempt st).2.2.accepted
      = (oneAttempt env root framework test_name ctx_file ctx_source initial_output agents
          dry_run max_attempts attempt st).1
    ∧ ((oneAttempt env root framework test_name ctx_file ctx_source initial_output agents
          dry_run max_attempts attempt st).1 = true
        → (oneAttempt env root framework test_name ctx_file ctx_source initial_output agents
            dry_run max_attempts attempt st).2.1.fixedCount = st.fixedCount + 1)
    ∧ ((oneAttempt env root framework test_name ctx_file ctx_source initial_output agents
          dry_run max_attempts attempt st).1 = false
        → (oneAttempt env root framework test_name ctx_file ctx_source initial_output agents
            dry_run max_attempts attempt st).2.1.fixedCount = st.fixedCount) := by
  simp only [oneAttempt]
  split
  · exact ⟨rfl, rfl, fun h => Bool.noConfusion h, fun _ => rfl⟩
  · exact ⟨rfl, rfl,
      fun h => (tryFixes_fixedCount env root framework test_name _ dry_run _ _).1 h,
      fun h => (tryFixes_fixedCount env root framework test_name _ dry_run _ _).2 h⟩

/-- Structure of the attempt loop: the produced records extend the accumulator by a
prefix-shaped batch whose indices are the first `k` processed indices; at most one
attempt (the last) accepts; without acceptance all indices are consumed; the fixed
count rises by one exactly on acceptance. -/
theorem attemptLoop_spec (env : Env)
    (root framework test_name ctx_file ctx_source initial_output : String)
    (agents : Nat) (dry_run : Bool) (max_attempts : Nat) :
    ∀ (idxs : List Nat) (st : RunState) (recs : List AttemptRec),
      ∃ new : List AttemptRec,
        (attemptLoop env root framework test_name ctx_file ctx_source initial_output agents
            dry_run max_attempts idxs st recs).2.2 = recs ++ new
        ∧ new.map AttemptRec.idx = idxs.take new.length
        ∧ new.length ≤ idxs.length
        ∧ (((attemptLoop env root framework test_name ctx_file ctx_source initial_output agents
              dry_run max_attempts idxs st recs).1 = false
            ∧ new.length = idxs.length ∧ (∀ a ∈ new, a.accepted = false))
          ∨ ((attemptLoop env root framework test_name ctx_file ctx_source initial_output agents
              dry_run max_attempts idxs st recs).1 = true
            ∧ ∃ front final, new = front ++ [final]
              ∧ (∀ a ∈ front, a.accepted = false) ∧ final.accepted = true))
        ∧ ((attemptLoop env root framework test_name ctx_file ctx_source initial_output agents
              dry_run max_attempts idxs st recs).1 = true
            → (attemptLoop env root framework test_name ctx_file ctx_source initial_output
                agents dry_run max_attempts idxs st recs).2.1.fixedCount = st.fixedCount + 1)
        ∧ ((attemptLoop env root framework test_name ctx_file ctx_source initial_output agents
              dry_run max_attempts idxs st recs).1 = false
            → (attemptLoop env root framework test_name ctx_file ctx_source initial_output
                agents dry_run max_attempts idxs st recs).2.1.fixedCount = st.fixedCount) := by
  intro idxs
  induction idxs with
  | nil =>
      intro st recs
      refine ⟨[], by simp [attemptLoop], rfl, Nat.le_refl 0, Or.inl ⟨rfl, rfl, by simp⟩,
        fun h => Bool.noConfusion h, fun _ => rfl⟩
  | cons a rest ih =>
      intro st recs
      obtain ⟨hidx, hacc, hfc1, hfc0⟩ := oneAttempt_spec env root framework test_name ctx_file
        ctx_source initial_output agents dry_run max_attempts a st
      simp only [attemptLoop]
      by_cases hr : (oneAttempt env root framework test_name ctx_file ctx_source initial_output
          agents dry_run max_attempts a st).1 = true
      · rw [if_pos hr]
        refine ⟨[(oneAttempt env root framework test_name ctx_file ctx_source initial_output
            agents dry_run max_attempts a st).2.2], rfl, ?_, ?_, ?_, ?_, ?_⟩
        · simp [hidx]
        · simp
        · exact Or.inr ⟨rfl, [], _, rfl, by simp, hacc.trans hr⟩
        · intro _
          exact hfc1 hr
        · intro hcon
          exact Bool.noConfusion hcon
      · have hrf : (oneAttempt env root framework test_name ctx_file ctx_source initial_output
            agents dry_run max_attempts a st).1 = false := Bool.eq_false_iff.mpr hr
        rw [if_neg hr]
        obtain ⟨new2, h_eq, h_map, h_len, h_disj, h_fc1, h_fc0⟩ := ih
          (oneAttempt env root framework test_name ctx_file ctx_source initial_output agents
            dry_run max_attempts a st).2.1
          (recs ++ [(oneAttempt env root framework test_name ctx_file ctx_source initial_output
            agents dry_run max_attempts a st).2.2])
        refine ⟨(oneAttempt env root framework test_name ctx_file ctx_source initial_output
            agents dry_run max_attempts a st).2.2 :: new2, ?_, ?_, ?_, ?_, ?_, ?_⟩
        · rw [h_eq, List.append_assoc]
          rfl
        · simp only [List.map_cons, List.length_cons, List.take_succ_cons, hidx, h_map]
        · exact Nat.succ_le_succ h_len
        · rcases h_disj with ⟨hf, hlen2, hall2⟩ | ⟨ht, front2, final2, hsplit2, hfr2, hfin2⟩
          · refine Or.inl ⟨hf, by simp [hlen2], ?_⟩
            intro b hb
            rcases List.mem_cons.mp hb with hb1 | hb2
            · rw [hb1]
              exact hacc.trans hrf
            · exact hall2 b hb2
          · refine Or.inr ⟨ht, (oneAttempt env root framework test_name ctx_file ctx_source
                initial_output agents dry_run max_attempts a st).2.2 :: front2, final2,
              by rw [hsplit2]; rfl, ?_, hfin2⟩
            intro b hb
            rcases List.mem_cons.mp hb with hb1 | hb2
            · rw [hb1]
              exact hacc.trans hrf
            · exact hfr2 b hb2
        · intro h
          exact (h_fc1 h).trans (by rw [hfc0 hrf])
        · intro h
          exact (h_fc0 h).trans (by rw [hfc0 hrf])

/-- Processing one test yields a record satisfying `RecordOK` and increases the
fixed count by at most one. -/
theorem processTest_spec (env : Env) (root framework : String) (agents : Nat) (dry_run : Bool)
    (max_attempts : Nat) (initial_output : String) (st : RunState) (test_name : String) :
    RecordOK max_attempts
      (processTest env root framework agents dry_run max_attempts initial_output st test_name).2
    ∧ (processTest env root framework agents dry_run max_attempts initial_output st
        test_name).1.fixedCount ≤ st.fixedCount + 1 := by
  simp only [processTest]
  split
  · constructor
    · refine ⟨rfl, Nat.zero_le _, ?_, ?_⟩
      · intro h
        exact Bool.noConfusion h
      · intro _
        exact ⟨by simp, fun hcon => Bool.noConfusion hcon, fun _ => rfl⟩
    · exact Nat.le_succ _
  · obtain ⟨new, h_eq, h_map, h_len, h_disj, h_fc1, h_fc0⟩ := attemptLoop_spec env root
      framework test_name
      (get_test_context root (logMsg st ("Fixing: " ++ test_name)).fs test_name framework).file
      (get_test_context root (logMsg st ("Fixing: " ++ test_name)).fs test_name
        framework).source
      initial_output agents dry_run max_attempts (List.range max_attempts)
      (logMsg st ("Fixing: " ++ test_name)) []
    have h_eq2 : (attemptLoop env root framework test_name
        (get_test_context root (logMsg st ("Fixing: " ++ test_name)).fs test_name
          framework).file
        (get_test_context root (logMsg st ("Fixing: " ++ test_name)).fs test_name
          framework).source
        initial_output agents dry_run max_attempts (List.range max_attempts)
        (logMsg st ("Fixing: " ++ test_name)) []).2.2 = new := by
      simpa using h_eq
    have h_len2 : new.length ≤ max_attempts := by
      simpa using h_len
    have h_map2 : new.map AttemptRec.idx = List.range new.length := by
      rw [h_map, List.take_range, min_eq_left h_len2]
    split
    · rename_i hr
      constructor
      · refine ⟨?_, ?_, ?_, ?_⟩
        · rw [h_eq2, h_map2]
        · rw [h_eq2]
          exact h_len2
        · intro _
          rcases h_disj with ⟨hf, _, _⟩ | ⟨_, front, final, hs, hfr, hfin⟩
          · rw [hr] at hf
            exact Bool.noConfusion hf
          · exact ⟨front, final, by rw [h_eq2, hs], hfr, hfin⟩
        · intro hcon
          exact Bool.noConfusion hcon
      · exact Nat.le_of_eq (h_fc1 hr)
    · rename_i hr
      have hrf := Bool.eq_false_iff.mpr hr
      constructor
      · refine ⟨?_, ?_, ?_, ?_⟩
        · rw [h_eq2, h_map2]
        · rw [h_eq2]
          exact h_len2
        · intro hcon
          exact Bool.noConfusion hcon
        · intro _
          rcases h_disj with ⟨_, hlen2, hall2⟩ | ⟨ht, _, _, _, _, _⟩
          · refine ⟨?_, ?_, fun hcon => Bool.noConfusion hcon⟩
            · intro a ha
              rw [h_eq2] at ha
              exact hall2 a ha
            · intro _
              rw [h_eq2]
              simpa using hlen2
          · rw [hrf] at ht
            exact Bool.noConfusion ht
      · exact Nat.le_succ_of_le (Nat.le_of_eq (h_fc0 hrf))

/-- Processing a list of tests increases the fixed count by at most the number of
tests, and every freshly produced record satisfies `RecordOK`. -/
theorem processTests_spec (env : Env) (root framework : String) (agents : Nat) (dry_run : Bool)
    (max_attempts : Nat) (initial_output : String) :
    ∀ (tests : List String) (st : RunState) (recs : List TestRecord),
      (processTests env root framework agents dry_run max_attempts initial_output tests st
          recs).1.fixedCount ≤ st.fixedCount + tests.length
      ∧ (∀ rec ∈ (processTests env root framework agents dry_run max_attempts initial_output
            tests st recs).2, rec ∈ recs ∨ RecordOK max_attempts rec) := by
  intro tests
  induction tests with
  | nil =>
      intro st recs
      exact ⟨by simp [processTests], fun rec h => Or.inl h⟩
  | cons t rest ih =>
      intro st recs
      simp only [processTests]
      obtain ⟨hOK, hle⟩ := processTest_spec env root framework agents dry_run max_attempts
        initial_output st t
      constructor
      · have h1 := (ih (processTest env root framework agents dry_run max_attempts
          initial_output st t).1 (recs ++ [(processTest env root framework agents dry_run
            max_attempts initial_output st t).2])).1
        simp only [List.length_cons]
        omega
      · intro rec h
        rcases (ih _ _).2 rec h with hmem | hOK2
        · rcases List.mem_append.mp hmem with h1 | h2
          · exact Or.inl h1
          · rw [List.mem_singleton.mp h2]
            exact Or.inr hOK
        · exact Or.inr hOK2

/-- Starting from a state with zero fixes, the final fixed count is bounded by the
number of processed tests. -/
theorem processTests_fixed_bound (env : Env) (root framework : String) (agents : Nat)
    (dry_run : Bool) (max_attempts : Nat) (initial_output : String) (tests : List String)
    (st : RunState) (h0 : st.fixedCount = 0) :
    (processTests env root framework agents dry_run max_attempts initial_output tests st
        []).1.fixedCount ≤ tests.length := by
  have h := (processTests_spec env root framework agents dry_run max_attempts initial_output
    tests st []).1
  omega

/-- C7: over any whole run, `fixedCount` never exceeds the number of initially
failing tests; and every per-test record satisfies `RecordOK`: its attempt indices
are exactly `0, 1, …` (strictly increasing from 0 and inside `[0, maxAttempts)`),
at most `maxAttempts` attempts are made, the accepting attempt — when the test was
fixed — is the last one (attempts stop at the first accepted candidate), and a test
with context that was never fixed spent exactly `maxAttempts` attempts. -/
theorem attempt_bounds_and_fixed_count (env : Env) (root framework : String) (agents : Nat)
    (dry_run : Bool) (max_attempts : Nat) (fs0 : FS) :
    (mainRun env root framework agents dry_run max_attempts fs0).state.fixedCount
      ≤ (mainRun env root framework agents dry_run max_attempts fs0).initial.failed_tests.length
    ∧ (∀ rec ∈ (mainRun env root framework agents dry_run max_attempts fs0).records,
        RecordOK max_attempts rec) := by
  simp only [mainRun]
  split
  · exact ⟨Nat.zero_le _, fun rec h => absurd h (List.not_mem_nil rec)⟩
  · split
    · exact ⟨Nat.zero_le _, fun rec h => absurd h (List.not_mem_nil rec)⟩
    · split
      · constructor
        · exact processTests_fixed_bound env root framework agents dry_run max_attempts _ _ _
            ((foldl_log_frame _ _).2.2.1)
        · intro rec h
          rcases (processTests_spec env root framework agents dry_run max_attempts _ _ _ _).2
            rec h with hmem | hOK
          · exact absurd hmem (List.not_mem_nil rec)
          · exact hOK
      · constructor
        · exact processTests_fixed_bound env root framework agents dry_run max_attempts _ _ _
            ((foldl_log_frame _ _).2.2.1)
        · intro rec h
          rcases (processTests_spec env root framework agents dry_run max_attempts _ _ _ _).2
            rec h with hmem | hOK
          · exact absurd hmem (List.not_mem_nil rec)
          · exact hOK

/-- Witness for C7: the record of the concrete accepting run is produced and
satisfies `RecordOK`. -/
theorem attempt_bounds_and_fixed_count_witness :
    recAcc ∈ (mainRun envAcc "/p" "pytest" 3 false 2 fsAcc).records
    ∧ RecordOK 2 recAcc :=
  ⟨by decide,
    (attempt_bounds_and_fixed_count envAcc "/p" "pytest" 3 false 2 fsAcc).2 recAcc (by decide)⟩

end MultiAgentFix
